import Mathlib

/-!
Shallow embedding of the public-goods-game room coordinator of
`src/main.py` (Gueterspiel repository): the room/round state machine,
the group partitioner, contribution submission, round resolution and the
payout computation, together with theorems settling the specification's
claims about them.

Numbers: Python floats are modelled as rationals; `round(x, 2)` is
modelled as round-half-to-even at two decimal places (Python's documented
rounding mode for `round`; binary-representation artefacts of IEEE floats
are outside the model, and no statement below evaluates the rounding at a
half-cent tie).  Randomness (`random.shuffle`, `random.random()`) is made
explicit: the shuffled order and the drawn number are arguments.
SocketIO emissions, page rendering and the wall-clock timer carry no core
state and are omitted; the `players` dictionary is modelled as a total map
(every id the code looks up is present).
-/

namespace Gueterspiel

/-- Per-player state, mirroring `Player.__init__` (src/main.py lines
172-184); `game_history` is flattened into the `balances` and
`contributions` lists. -/
structure Player where
  id : Nat
  name : String
  isLeader : Bool
  coins : ℚ
  currentContribution : ℚ
  ready : Bool
  balances : List ℚ
  contributions : List ℚ
deriving Repr, DecidableEq

/-- Room settings dictionary built in `create_game` (lines 383-410).  All
fields are present in the model; the code reads only the keys relevant to
its branch.  `minProbability`/`maxProbability` are the keys of the spec's
`ProbabilityRange` mode; no code in `src/main.py` ever reads them. -/
structure Settings where
  initialCoins : ℚ
  maxContribution : ℚ
  groupSize : Nat
  multiplier : ℚ
  roundDuration : Nat
  fixedGroups : Bool
  endMode : String
  maxRounds : Nat
  minRounds : Nat
  maxRoundsProbability : Nat
  continueProbability : ℚ
  minProbability : ℚ
  maxProbability : ℚ
deriving Repr, DecidableEq

/-- One group as built by `GameRoom.create_groups` (lines 79-83). -/
structure Group where
  groupNumber : Nat
  members : List String
  playerIds : List Nat
deriving Repr, DecidableEq

/-- Per-player entry of a group result (lines 148-155). -/
structure PlayerResult where
  id : Nat
  name : String
  contribution : ℚ
  payout : ℚ
  newBalance : ℚ
  profit : ℚ
deriving Repr, DecidableEq

/-- Per-group entry of the round results (lines 161-167). -/
structure GroupResult where
  groupNumber : Nat
  totalContribution : ℚ
  totalPool : ℚ
  payoutPerPlayer : ℚ
  players : List PlayerResult
deriving Repr, DecidableEq

/-- Room state, mirroring `GameRoom.__init__` (lines 37-48). -/
structure GameRoom where
  id : String
  leaderId : Nat
  settings : Settings
  players : List Nat
  status : String
  currentRound : Nat
  groups : List Group
  submittedPlayers : List Nat
  roundResults : Option (List GroupResult)
deriving Repr, DecidableEq

/-- The global `players` dictionary, as a total map. -/
abbrev PMap := Nat → Player

/-- Pointwise update of the players map (a Python dictionary write). -/
def updateP (pm : PMap) (pid : Nat) (p : Player) : PMap :=
  fun j => if j = pid then p else pm j

/-- Round-half-to-even of a rational to an integer (the rounding mode of
Python's `round`). -/
def roundHalfEven (q : ℚ) : ℤ :=
  if q - ⌊q⌋ < 1/2 then ⌊q⌋
  else if 1/2 < q - ⌊q⌋ then ⌊q⌋ + 1
  else if ⌊q⌋ % 2 = 0 then ⌊q⌋ else ⌊q⌋ + 1

/-- Python `round(x, 2)` on the rational model. -/
def round2 (q : ℚ) : ℚ := ((roundHalfEven (q * 100) : ℤ) : ℚ) / 100

/-- Python `int(x)` on a numeric payload: truncation toward zero. -/
def truncQ (q : ℚ) : ℤ := if 0 ≤ q then ⌊q⌋ else ⌈q⌉

/-- Python `set.add` on the submitted-players set, modelled as a
duplicate-free list. -/
def insertId (pid : Nat) (l : List Nat) : List Nat :=
  if pid ∈ l then l else l ++ [pid]

/-- Slicing loop of `GameRoom.create_groups` (lines 77-78):
`for i in range(0, len(player_list), group_size)` takes consecutive slices
of `group_size` elements; the final slice may be shorter.  For `gs = 0`
(where Python's `range` would raise `ValueError`) the model returns `[]`;
every claim has `groupSize ≥ 2`. -/
def chunkGo {α : Type} (gs : Nat) : Nat → List α → List (List α)
  | _, [] => []
  | 0, _ :: _ => []
  | fuel + 1, x :: rest =>
    (x :: rest).take gs :: chunkGo gs fuel ((x :: rest).drop gs)

/-- Python's `range(0, len(xs), gs)` iteration, as slice extraction: for
`gs ≥ 1` each iteration consumes at least one element, so `xs.length` is
enough fuel for `chunkGo`.  For `gs = 0` Python's `range` would raise
`ValueError`; the model returns `[]` (every claim has `groupSize ≥ 2`). -/
def chunkList {α : Type} (gs : Nat) (xs : List α) : List (List α) :=
  if gs = 0 then [] else chunkGo gs xs.length xs

/-- `GameRoom.create_groups` (lines 71-83).  The result of
`random.shuffle` is the explicit argument `shuffled`; group numbers count
up from 1 in order of appending. -/
def create_groups (room : GameRoom) (pm : PMap) (shuffled : List Nat) : GameRoom :=
  let gs := room.settings.groupSize
  let chunks := chunkList gs shuffled
  { room with
    groups := chunks.enum.map (fun ig =>
      { groupNumber := ig.1 + 1,
        members := ig.2.map (fun pid => (pm pid).name),
        playerIds := ig.2 }) }

/-- `GameRoom.can_start_game` (lines 62-69): player-count and all-ready
check.  The room `status` is not consulted. -/
def can_start_game (room : GameRoom) (pm : PMap) : Bool :=
  let gs := room.settings.groupSize
  let hasCorrectPlayerCount :=
    decide (gs ≤ room.players.length) && decide (room.players.length % gs = 0)
  let allPlayersReady := room.players.all (fun pid => (pm pid).ready)
  hasCorrectPlayerCount && allPlayersReady

/-- `GameRoom.should_continue_game` (lines 91-110); the `random.random()`
draw of the probability branch is the explicit argument `draw`.  There is
no branch for any other `end_mode` (in particular none for the spec's
`probability_range` mode): the trailing `return False` applies. -/
def should_continue_game (room : GameRoom) (draw : ℚ) : Bool :=
  if room.currentRound = 0 then true
  else if room.settings.endMode = "fixed_rounds" then
    decide (room.currentRound < room.settings.maxRounds)
  else if room.settings.endMode = "probability" then
    if room.currentRound < room.settings.minRounds then true
    else if room.settings.maxRoundsProbability ≤ room.currentRound then false
    else decide (draw ≤ room.settings.continueProbability)
  else false

/-- Body of the inner member loop of `GameRoom.calculate_round_results`
(lines 135-159): the running `total_contribution` is accumulated first,
and the member's payout is computed from that running total. -/
def memberStep (multiplier nQ : ℚ) (acc : ℚ × List PlayerResult × PMap)
    (pid : Nat) : ℚ × List PlayerResult × PMap :=
  let player := acc.2.2 pid
  let contribution := player.currentContribution
  let total := acc.1 + contribution
  let oldBalance := player.coins
  let payout := total * multiplier / nQ
  let newCoins := round2 ((oldBalance - contribution) + payout)
  let player2 : Player :=
    { player with
      coins := newCoins,
      balances := player.balances ++ [round2 newCoins],
      contributions := player.contributions ++ [round2 contribution] }
  let pr : PlayerResult :=
    { id := pid, name := player.name, contribution := round2 contribution,
      payout := round2 payout, newBalance := round2 newCoins,
      profit := round2 (payout - contribution) }
  (total, acc.2.1 ++ [pr], updateP acc.2.2 pid player2)

/-- Per-group body of `calculate_round_results` (lines 131-167). -/
def processGroup (multiplier : ℚ) (acc : PMap × List GroupResult)
    (g : Group) : PMap × List GroupResult :=
  let n : ℚ := (g.playerIds.length : ℚ)
  let inner := g.playerIds.foldl (memberStep multiplier n) (0, [], acc.1)
  let gr : GroupResult :=
    { groupNumber := g.groupNumber,
      totalContribution := round2 inner.1,
      totalPool := round2 (inner.1 * multiplier),
      payoutPerPlayer := round2 (inner.1 * multiplier / n),
      players := inner.2.1 }
  (inner.2.2, acc.2 ++ [gr])

/-- `GameRoom.calculate_round_results` (lines 127-170): returns the
mutated players map and the per-group results list. -/
def calculate_round_results (groups : List Group) (multiplier : ℚ)
    (pm : PMap) : PMap × List GroupResult :=
  groups.foldl (processGroup multiplier) (pm, [])

/-- Default-fill loop of `finish_round` (lines 876-879): every non-leader
member that has not submitted gets contribution 0 and is marked
submitted. -/
def defaultFill (playersL : List Nat) (submitted : List Nat) (pm : PMap) :
    List Nat × PMap :=
  match playersL with
  | [] => (submitted, pm)
  | pid :: rest =>
    if pid ∉ submitted ∧ (pm pid).isLeader = false then
      defaultFill rest (submitted ++ [pid])
        (updateP pm pid { pm pid with currentContribution := 0 })
    else defaultFill rest submitted pm

/-- `finish_round` (lines 868-901) for an existing room.  Note: the room
`status` is not checked, nothing prevents a second execution for the same
round, and the players' `current_contribution` is not cleared. -/
def finish_round (room : GameRoom) (pm : PMap) : GameRoom × PMap :=
  let sp := defaultFill room.players room.submittedPlayers pm
  let cr := calculate_round_results room.groups room.settings.multiplier sp.2
  ({ room with roundResults := some cr.2, status := "round_results",
               submittedPlayers := [] },
   cr.1)

/-- Outcome of `handle_submit_contribution`: `accepted` records the
contribution, `insufficientCoins` is the emitted error for
`contribution > player.coins`, and `ignored` is the silent return for a
leader. -/
inductive SubmitOutcome where
  | accepted
  | insufficientCoins
  | ignored
deriving Repr, DecidableEq

/-- `handle_submit_contribution` (lines 832-866) for an existing player in
an existing room: the payload is truncated with `int`, the only validation
is `contribution > player.coins`, and once everyone has submitted the
round is finished immediately (`stop_game_timer` carries no modelled
state). -/
def handle_submit_contribution (room : GameRoom) (pm : PMap) (pid : Nat)
    (amount : ℚ) : GameRoom × PMap × SubmitOutcome :=
  let contribution : ℤ := truncQ amount
  let player := pm pid
  if player.isLeader then (room, pm, SubmitOutcome.ignored)
  else if player.coins < (contribution : ℚ) then
    (room, pm, SubmitOutcome.insufficientCoins)
  else
    let pm2 := updateP pm pid { player with currentContribution := (contribution : ℚ) }
    let room2 := { room with submittedPlayers := insertId pid room.submittedPlayers }
    let submittedCount := room2.submittedPlayers.length
    let totalPlayers := (room2.players.filter (fun q => !(pm2 q).isLeader)).length
    let st :=
      if submittedCount = totalPlayers then finish_round room2 pm2
      else (room2, pm2)
    (st.1, st.2, SubmitOutcome.accepted)

/-- `handle_start_game` (lines 787-830) for an existing session;
`shuffled` is the shuffle order used by `create_groups`.  On failure
(non-leader caller or `can_start_game` false) only an error is emitted and
the state is unchanged. -/
def handle_start_game (room : GameRoom) (pm : PMap) (callerId : Nat)
    (shuffled : List Nat) : GameRoom × PMap :=
  if (pm callerId).isLeader then
    if can_start_game room pm then
      let room2 := { room with status := "playing", currentRound := 1 }
      let room3 := create_groups room2 pm shuffled
      let pm2 := room3.players.foldl
        (fun m pid => updateP m pid { m pid with ready := false }) pm
      (room3, pm2)
    else (room, pm)
  else (room, pm)

/-- `GameRoom.reset_for_next_round` (lines 112-125). -/
def reset_for_next_round (room : GameRoom) (pm : PMap)
    (shuffled : List Nat) : GameRoom × PMap :=
  let room2 := { room with status := "playing", currentRound := room.currentRound + 1 }
  let room3 := if room2.settings.fixedGroups then room2
               else create_groups room2 pm shuffled
  let pm2 := room3.players.foldl
    (fun m pid => updateP m pid { m pid with currentContribution := 0 }) pm
  ({ room3 with submittedPlayers := [], roundResults := none }, pm2)

/-- `handle_next_round` (lines 903-941) for an existing session: `draw`
feeds `should_continue_game`, `shuffled` feeds a possible regrouping. -/
def handle_next_round (room : GameRoom) (pm : PMap) (callerId : Nat)
    (draw : ℚ) (shuffled : List Nat) : GameRoom × PMap :=
  if (pm callerId).isLeader then
    if should_continue_game room draw then
      reset_for_next_round room pm shuffled
    else ({ room with status := "finished" }, pm)
  else (room, pm)

/-- `handle_game_time_out` (lines 943-955): any client whose session
resolves to an existing player in an existing room triggers
`finish_round`; neither the room status nor whether the round was already
resolved is checked. -/
def handle_game_time_out (room : GameRoom) (pm : PMap) (callerId : Nat) :
    GameRoom × PMap :=
  let _ := pm callerId
  finish_round room pm

/-! Concrete states used to evaluate the code model on the scenarios named
by the claims. -/

/-- Default record for ids absent from the concrete player maps below
(mirroring a freshly constructed `Player`). -/
def basePlayer : Player :=
  { id := 0, name := "", isLeader := false, coins := 0,
    currentContribution := 0, ready := false, balances := [],
    contributions := [] }

/-- Settings of the claims' scenarios: `initial_coins = 10`,
`max_contribution = 10`, `group_size = 4`, `multiplier = 2`,
`end_mode = fixed_rounds` with `max_rounds = 5`. -/
def baseSettings : Settings :=
  { initialCoins := 10, maxContribution := 10, groupSize := 4,
    multiplier := 2, roundDuration := 60, fixedGroups := true,
    endMode := "fixed_rounds", maxRounds := 5, minRounds := 1,
    maxRoundsProbability := 10, continueProbability := 1/2,
    minProbability := 0, maxProbability := 1 }

/-- Scenario B players: ids 1-4, balance 10, each having submitted a
contribution of 10. -/
def mkContributor (pid : Nat) (name : String) (coins contribution : ℚ) : Player :=
  { basePlayer with
    id := pid, name := name, coins := coins,
    currentContribution := contribution, balances := [coins] }

def pmB : PMap := fun pid =>
  if pid = 1 then mkContributor 1 "P1" 10 10
  else if pid = 2 then mkContributor 2 "P2" 10 10
  else if pid = 3 then mkContributor 3 "P3" 10 10
  else if pid = 4 then mkContributor 4 "P4" 10 10
  else basePlayer

/-- Scenario B group: one group of the four players. -/
def groupB : Group :=
  { groupNumber := 1, members := ["P1", "P2", "P3", "P4"],
    playerIds := [1, 2, 3, 4] }

/-- Leader record used by the concrete rooms. -/
def leaderPlayer : Player :=
  { basePlayer with id := 99, name := "Leader", isLeader := true }

/-- Players for the submission scenarios: id 7 has 20 coins, id 8 has 10
coins, id 99 is the leader; nobody has submitted yet. -/
def pmS : PMap := fun pid =>
  if pid = 7 then { basePlayer with id := 7, name := "S7", coins := 20 }
  else if pid = 8 then { basePlayer with id := 8, name := "S8", coins := 10 }
  else if pid = 99 then leaderPlayer
  else basePlayer

/-- Room of the submission scenarios: still `waiting`, `max_contribution`
10, members 7 and 8, nobody submitted. -/
def roomS : GameRoom :=
  { id := "rS", leaderId := 99, settings := { baseSettings with groupSize := 2 },
    players := [7, 8], status := "waiting", currentRound := 1,
    groups := [{ groupNumber := 1, members := ["S7", "S8"], playerIds := [7, 8] }],
    submittedPlayers := [], roundResults := none }

/-- Players for the double-resolution scenario: ids 1 and 2, balance 10,
both have submitted a contribution of 10. -/
def pm2 : PMap := fun pid =>
  if pid = 1 then mkContributor 1 "A" 10 10
  else if pid = 2 then mkContributor 2 "B" 10 10
  else basePlayer

/-- Room of the double-resolution scenario: `playing`, group size 2, both
members in `submitted_players`. -/
def room2 : GameRoom :=
  { id := "r2", leaderId := 99, settings := { baseSettings with groupSize := 2 },
    players := [1, 2], status := "playing", currentRound := 1,
    groups := [{ groupNumber := 1, members := ["A", "B"], playerIds := [1, 2] }],
    submittedPlayers := [1, 2], roundResults := none }

/-- Players for the idempotence scenario: ids 5 and 6 with balance 10 and
submitted contributions 4 and 6. -/
def pm6 : PMap := fun pid =>
  if pid = 5 then mkContributor 5 "C" 10 4
  else if pid = 6 then mkContributor 6 "D" 10 6
  else basePlayer

/-- Room of the idempotence scenario: `playing`, group size 2,
multiplier 3, both members submitted. -/
def room6 : GameRoom :=
  { id := "r6", leaderId := 99,
    settings := { baseSettings with groupSize := 2, multiplier := 3 },
    players := [5, 6], status := "playing", currentRound := 1,
    groups := [{ groupNumber := 1, members := ["C", "D"], playerIds := [5, 6] }],
    submittedPlayers := [5, 6], roundResults := none }

/-- Players for scenario A: ids 1-8 all ready with balance 10, id 99 the
leader. -/
def pm5 : PMap := fun pid =>
  if pid = 99 then leaderPlayer
  else if 1 ≤ pid ∧ pid ≤ 8 then
    { basePlayer with id := pid, name := "R", coins := 10, ready := true }
  else basePlayer

/-- Room of scenario A: `waiting`, group size 4, eight ready members. -/
def room5 : GameRoom :=
  { id := "r5", leaderId := 99, settings := baseSettings,
    players := [1, 2, 3, 4, 5, 6, 7, 8], status := "waiting",
    currentRound := 0, groups := [], submittedPlayers := [],
    roundResults := none }

/-- The scenario-A room after the game has already started: the status is
`playing`, everything else unchanged. -/
def room5x : GameRoom := { room5 with status := "playing" }

/-- Room for the partitioner scenario: five members, group size 4. -/
def roomG : GameRoom :=
  { id := "rG", leaderId := 99, settings := baseSettings,
    players := [1, 2, 3, 4, 5], status := "waiting", currentRound := 0,
    groups := [], submittedPlayers := [], roundResults := none }

/-- Room for the `probability_range` scenario: `end_mode` is
`probability_range` with `maxProbability = 1`, one round resolved. -/
def roomPR : GameRoom :=
  { id := "rPR", leaderId := 99,
    settings := { baseSettings with
                  endMode := "probability_range", minProbability := 1/2,
                  maxProbability := 1 },
    players := [1, 2], status := "round_results", currentRound := 1,
    groups := [], submittedPlayers := [], roundResults := none }

/-- Leader-only player map for the round-advance scenario. -/
def pm9 : PMap := fun pid => if pid = 99 then leaderPlayer else basePlayer

/-- Room for scenario C: `fixed_rounds` with `max_rounds = 3` and round 3
just resolved. -/
def room9 : GameRoom :=
  { id := "r9", leaderId := 99,
    settings := { baseSettings with maxRounds := 3 },
    players := [1, 2, 3, 4], status := "round_results", currentRound := 3,
    groups := [], submittedPlayers := [], roundResults := none }

/-! Helper lemmas about the slicing loop, the enumeration used for group
numbers, and which player fields the payout computation leaves alone. -/

theorem chunkGo_flatten {α : Type} (gs : Nat) (hgs : 1 ≤ gs) :
    ∀ (fuel : Nat) (xs : List α), xs.length ≤ fuel →
      (chunkGo gs fuel xs).flatten = xs := by
  intro fuel
  induction fuel with
  | zero =>
      intro xs h
      match xs with
      | [] => rfl
  | succ n ih =>
      intro xs h
      match xs with
      | [] => rfl
      | x :: rest =>
          simp only [chunkGo, List.flatten_cons]
          rw [ih ((x :: rest).drop gs) ?_, List.take_append_drop]
          simp only [List.length_drop, List.length_cons] at h ⊢
          omega

theorem chunkGo_mem_length {α : Type} (gs : Nat) (hgs : 1 ≤ gs) :
    ∀ (fuel : Nat) (xs : List α), ∀ g ∈ chunkGo gs fuel xs,
      0 < g.length ∧ g.length ≤ gs := by
  intro fuel
  induction fuel with
  | zero =>
      intro xs g hg
      match xs with
      | [] => cases hg
      | _ :: _ => cases hg
  | succ n ih =>
      intro xs g hg
      match xs with
      | [] => cases hg
      | x :: rest =>
          rcases List.mem_cons.mp hg with hg | hg
          · subst hg
            simp only [List.length_take, List.length_cons]
            constructor
            · omega
            · exact min_le_left _ _
          · exact ih _ g hg

theorem chunkGo_mem_length_of_dvd {α : Type} (gs : Nat) (hgs : 1 ≤ gs) :
    ∀ (fuel : Nat) (xs : List α), xs.length ≤ fuel → gs ∣ xs.length →
      ∀ g ∈ chunkGo gs fuel xs, g.length = gs := by
  intro fuel
  induction fuel with
  | zero =>
      intro xs h hd g hg
      match xs with
      | [] => cases hg
  | succ n ih =>
      intro xs h hd g hg
      match xs with
      | [] => cases hg
      | x :: rest =>
          have hle : gs ≤ (x :: rest).length := Nat.le_of_dvd (by simp) hd
          rcases List.mem_cons.mp hg with hg | hg
          · subst hg
            simp only [List.length_take]
            omega
          · refine ih ((x :: rest).drop gs) ?_ ?_ g hg
            · simp only [List.length_drop, List.length_cons] at h ⊢
              omega
            · simp only [List.length_drop]
              exact Nat.dvd_sub' hd dvd_rfl

theorem chunkGo_length_of_dvd {α : Type} (gs : Nat) (hgs : 1 ≤ gs) :
    ∀ (fuel : Nat) (xs : List α), xs.length ≤ fuel → gs ∣ xs.length →
      (chunkGo gs fuel xs).length = xs.length / gs := by
  intro fuel
  induction fuel with
  | zero =>
      intro xs h hd
      match xs with
      | [] => simp [chunkGo]
  | succ n ih =>
      intro xs h hd
      match xs with
      | [] => simp [chunkGo]
      | x :: rest =>
          have hle : gs ≤ rest.length + 1 := by
            have h2 := Nat.le_of_dvd (by simp) hd
            simpa using h2
          simp only [chunkGo, List.length_cons]
          rw [ih ((x :: rest).drop gs) ?_ ?_]
          · rw [Nat.div_eq (rest.length + 1) gs, if_pos ⟨by omega, hle⟩]
            simp [List.length_drop]
          · simp only [List.length_drop, List.length_cons] at h ⊢
            omega
          · simp only [List.length_drop]
            exact Nat.dvd_sub' hd dvd_rfl

theorem chunkList_flatten {α : Type} (gs : Nat) (hgs : 1 ≤ gs) (xs : List α) :
    (chunkList gs xs).flatten = xs := by
  rw [chunkList, if_neg (by omega : ¬ gs = 0)]
  exact chunkGo_flatten gs hgs xs.length xs le_rfl

theorem chunkList_mem_length {α : Type} (gs : Nat) (hgs : 1 ≤ gs) (xs : List α) :
    ∀ g ∈ chunkList gs xs, 0 < g.length ∧ g.length ≤ gs := by
  rw [chunkList, if_neg (by omega : ¬ gs = 0)]
  exact chunkGo_mem_length gs hgs xs.length xs

theorem chunkList_mem_length_of_dvd {α : Type} (gs : Nat) (hgs : 1 ≤ gs)
    (xs : List α) (hd : gs ∣ xs.length) :
    ∀ g ∈ chunkList gs xs, g.length = gs := by
  rw [chunkList, if_neg (by omega : ¬ gs = 0)]
  exact chunkGo_mem_length_of_dvd gs hgs xs.length xs le_rfl hd

theorem chunkList_length_of_dvd {α : Type} (gs : Nat) (hgs : 1 ≤ gs)
    (xs : List α) (hd : gs ∣ xs.length) :
    (chunkList gs xs).length = xs.length / gs := by
  rw [chunkList, if_neg (by omega : ¬ gs = 0)]
  exact chunkGo_length_of_dvd gs hgs xs.length xs le_rfl hd

theorem roundHalfEven_intCast (z : ℤ) : roundHalfEven (z : ℚ) = z := by
  rw [roundHalfEven]
  norm_num

theorem round2_intCast (z : ℤ) : round2 (z : ℚ) = z := by
  have h : ((z : ℚ) * 100) = ((z * 100 : ℤ) : ℚ) := by push_cast; ring
  rw [round2, h, roundHalfEven_intCast]
  push_cast
  field_simp

@[simp]
theorem round2_natCast (n : ℕ) : round2 (n : ℚ) = n := by
  have h := round2_intCast (n : ℤ)
  push_cast at h
  exact h

@[simp]
theorem round2_zero : round2 0 = 0 := by
  have h := round2_intCast 0
  push_cast at h
  exact h

@[simp]
theorem round2_one : round2 1 = 1 := by
  have h := round2_intCast 1
  push_cast at h
  exact h

@[simp]
theorem round2_ofNat (n : ℕ) [n.AtLeastTwo] :
    round2 (no_index (OfNat.ofNat n)) = OfNat.ofNat n := by
  have h := round2_natCast n
  exact_mod_cast h

@[simp]
theorem round2_neg_ofNat (n : ℕ) [n.AtLeastTwo] :
    round2 (-no_index (OfNat.ofNat n)) = -OfNat.ofNat n := by
  have h := round2_intCast (-(OfNat.ofNat n : ℤ))
  push_cast at h
  exact h

@[simp]
theorem truncQ_natCast (n : ℕ) : truncQ (n : ℚ) = n := by
  rw [truncQ, if_pos (by positivity)]
  exact_mod_cast Int.floor_natCast n

@[simp]
theorem truncQ_zero : truncQ 0 = 0 := by
  have h := truncQ_natCast 0
  push_cast at h
  exact h

@[simp]
theorem truncQ_one : truncQ 1 = 1 := by
  have h := truncQ_natCast 1
  push_cast at h
  exact h

@[simp]
theorem truncQ_ofNat (n : ℕ) [n.AtLeastTwo] :
    truncQ (no_index (OfNat.ofNat n)) = OfNat.ofNat n := by
  have h := truncQ_natCast n
  exact_mod_cast h

@[simp]
theorem truncQ_neg_ofNat (n : ℕ) [n.AtLeastTwo] :
    truncQ (-no_index (OfNat.ofNat n)) = -OfNat.ofNat n := by
  rw [truncQ]
  rw [if_neg (by norm_num : ¬ (0 : ℚ) ≤ -OfNat.ofNat n)]
  rw [show (-(OfNat.ofNat n : ℚ)) = ((-(OfNat.ofNat n : ℤ) : ℤ) : ℚ) by push_cast; ring]
  rw [Int.ceil_intCast]

theorem create_groups_playerIds (room : GameRoom) (pm : PMap)
    (shuffled : List Nat) :
    (create_groups room pm shuffled).groups.map (fun g => g.playerIds)
      = chunkList room.settings.groupSize shuffled := by
  simp only [create_groups, List.map_map]
  have h : ((fun g : Group => g.playerIds) ∘ fun ig : Nat × List Nat =>
      ({ groupNumber := ig.1 + 1,
         members := ig.2.map (fun pid => (pm pid).name),
         playerIds := ig.2 } : Group)) = Prod.snd := rfl
  rw [h, List.enum_map_snd]

theorem create_groups_mem_playerIds (room : GameRoom) (pm : PMap)
    (shuffled : List Nat) (g : Group)
    (hg : g ∈ (create_groups room pm shuffled).groups) :
    g.playerIds ∈ chunkList room.settings.groupSize shuffled := by
  have h := List.mem_map_of_mem (fun g : Group => g.playerIds) hg
  rwa [create_groups_playerIds] at h

theorem create_groups_length (room : GameRoom) (pm : PMap)
    (shuffled : List Nat) :
    (create_groups room pm shuffled).groups.length
      = (chunkList room.settings.groupSize shuffled).length := by
  simp [create_groups, List.enum_length]

theorem memberStep_currentContribution (multiplier nQ : ℚ)
    (acc : ℚ × List PlayerResult × PMap) (pid q : Nat) :
    ((memberStep multiplier nQ acc pid).2.2 q).currentContribution
      = (acc.2.2 q).currentContribution := by
  by_cases h : q = pid <;> simp [memberStep, updateP, h]

theorem foldl_memberStep_currentContribution (multiplier nQ : ℚ)
    (ids : List Nat) :
    ∀ (acc : ℚ × List PlayerResult × PMap) (q : Nat),
      ((ids.foldl (memberStep multiplier nQ) acc).2.2 q).currentContribution
        = (acc.2.2 q).currentContribution := by
  induction ids with
  | nil => intro acc q; rfl
  | cons p rest ih =>
      intro acc q
      rw [List.foldl_cons, ih, memberStep_currentContribution]

theorem foldl_processGroup_currentContribution (groups : List Group)
    (multiplier : ℚ) :
    ∀ (acc : PMap × List GroupResult) (q : Nat),
      ((groups.foldl (processGroup multiplier) acc).1 q).currentContribution
        = (acc.1 q).currentContribution := by
  induction groups with
  | nil => intro acc q; rfl
  | cons g rest ih =>
      intro acc q
      rw [List.foldl_cons, ih]
      exact foldl_memberStep_currentContribution multiplier _ g.playerIds _ q

theorem defaultFill_eq_of_mem (playersL : List Nat) :
    ∀ (sub : List Nat) (pm : PMap) (q : Nat), q ∈ sub →
      (defaultFill playersL sub pm).2 q = pm q := by
  induction playersL with
  | nil => intro sub pm q hq; rfl
  | cons p rest ih =>
      intro sub pm q hq
      simp only [defaultFill]
      by_cases hc : p ∉ sub ∧ (pm p).isLeader = false
      · rw [if_pos hc]
        have hqp : q ≠ p := fun e => hc.1 (e ▸ hq)
        rw [ih (sub ++ [p]) _ q (List.mem_append.mpr (Or.inl hq))]
        simp [updateP, hqp]
      · rw [if_neg hc]
        exact ih sub pm q hq

theorem mem_insertId (pid : Nat) (l : List Nat) : pid ∈ insertId pid l := by
  unfold insertId
  split
  · assumption
  · simp

theorem finish_round_currentContribution (room : GameRoom) (pm : PMap)
    (q : Nat) (h : q ∈ room.submittedPlayers) :
    ((finish_round room pm).2 q).currentContribution
      = (pm q).currentContribution := by
  simp only [finish_round, calculate_round_results]
  rw [foldl_processGroup_currentContribution]
  exact congrArg Player.currentContribution (defaultFill_eq_of_mem _ _ _ _ h)

/-! Theorems settling the specification's claims. -/

/-- C1.  The claim says every member of a resolved group receives the same
`payoutPerPlayer = (sum of all contributions) × multiplier / groupSize`,
so that in scenario B (one group of four, each with balance 10
contributing 10, multiplier 2) every member ends with balance 20 and
profit 10.  The code computes each member's payout from the *running*
prefix sum of contributions (line 138 adds the contribution, line 144
pays from the partial total), so on scenario B the recorded payouts are
5, 10, 15, 20, the first member's new balance is 5 and its profit is -5;
only the group-level `payout_per_player` summary field (computed after
the loop) equals 20. -/
theorem C1_payout_uses_running_total :
    ((calculate_round_results [groupB] 2 pmB).2.map
        (fun gr => gr.players.map (fun p => p.payout))) = [[5, 10, 15, 20]]
    ∧ ((calculate_round_results [groupB] 2 pmB).2.map
        (fun gr => gr.payoutPerPlayer)) = [20]
    ∧ ((calculate_round_results [groupB] 2 pmB).1 1).coins = 5
    ∧ ((calculate_round_results [groupB] 2 pmB).2.map
        (fun gr => gr.players.map (fun p => p.profit))) = [[-5, 0, 5, 10]]
    ∧ ((calculate_round_results [groupB] 2 pmB).1 4).coins = 20 := by
  norm_num [calculate_round_results, processGroup, memberStep, updateP,
    pmB, groupB, mkContributor, basePlayer]

/-- C7.  The claim says the payouts actually received by a group's members
sum to `C × multiplier` within a tolerance of `groupSize × 0.01`.  On
scenario B (contributions summing to C = 40, multiplier 2, group size 4)
the members' recorded payouts are the prefix-sum payouts 5, 10, 15, 20,
summing to 50, while `C × multiplier = 80`; the difference 30 far exceeds
the tolerance 0.04. -/
theorem C7_conservation_fails :
    ((calculate_round_results [groupB] 2 pmB).2.map
        (fun gr => (gr.players.map (fun p => p.payout)).sum)) = [50]
    ∧ ((calculate_round_results [groupB] 2 pmB).2.map
        (fun gr => gr.totalContribution * 2)) = [80]
    ∧ ¬ (|(50 : ℚ) - 80| ≤ 4 * (1 / 100)) := by
  refine ⟨?_, ?_, ?_⟩
  · norm_num [calculate_round_results, processGroup, memberStep, updateP,
      pmB, groupB, mkContributor, basePlayer]
  · norm_num [calculate_round_results, processGroup, memberStep, updateP,
      pmB, groupB, mkContributor, basePlayer]
  · rw [show ((50 : ℚ) - 80) = -30 by norm_num, abs_neg]
    norm_num

/-- C2.  The claim says round resolution runs at most once per round even
when a submission, the timer and a client-sent timeout event all reach the
all-submitted condition.  The code has no such guard: `finish_round`
(lines 868-901) never checks the room status, and `handle_game_time_out`
(lines 943-955) calls it for any existing player/room.  Starting from a
round that has just been resolved (`room2` after `finish_round`), a stray
`game_time_out` event runs the resolution again: `roundResults` is
overwritten (with zero-contribution results) and each player's balance
history receives a duplicate entry. -/
theorem C2_resolution_not_guarded :
    (finish_round room2 pm2).1.status = "round_results"
    ∧ (handle_game_time_out (finish_round room2 pm2).1
        (finish_round room2 pm2).2 1).1.roundResults
        ≠ (finish_round room2 pm2).1.roundResults
    ∧ ((finish_round room2 pm2).1.roundResults.map
        (fun rs => rs.map (fun gr => gr.players.map (fun p => p.payout))))
        = some [[10, 20]]
    ∧ ((handle_game_time_out (finish_round room2 pm2).1
        (finish_round room2 pm2).2 1).1.roundResults.map
        (fun rs => rs.map (fun gr => gr.players.map (fun p => p.payout))))
        = some [[0, 0]]
    ∧ ((finish_round room2 pm2).2 1).balances = [10, 10]
    ∧ ((handle_game_time_out (finish_round room2 pm2).1
        (finish_round room2 pm2).2 1).2 1).balances = [10, 10, 10] := by
  have e1 : ((finish_round room2 pm2).1.roundResults.map
      (fun rs => rs.map (fun gr => gr.players.map (fun p => p.payout))))
      = some [[10, 20]] := by
    norm_num [finish_round, defaultFill, calculate_round_results,
      processGroup, memberStep, updateP, room2, pm2, mkContributor,
      basePlayer, baseSettings]
  have e2 : ((handle_game_time_out (finish_round room2 pm2).1
      (finish_round room2 pm2).2 1).1.roundResults.map
      (fun rs => rs.map (fun gr => gr.players.map (fun p => p.payout))))
      = some [[0, 0]] := by
    norm_num [handle_game_time_out, finish_round, defaultFill,
      calculate_round_results, processGroup, memberStep, updateP, room2,
      pm2, mkContributor, basePlayer, baseSettings]
  refine ⟨rfl, ?_, e1, e2, ?_, ?_⟩
  · intro h
    rw [h, e1] at e2
    exact absurd e2 (by norm_num)
  · norm_num [finish_round, defaultFill, calculate_round_results,
      processGroup, memberStep, updateP, room2, pm2, mkContributor,
      basePlayer, baseSettings]
  · norm_num [handle_game_time_out, finish_round, defaultFill,
      calculate_round_results, processGroup, memberStep, updateP, room2,
      pm2, mkContributor, basePlayer, baseSettings]

/-- C6.  The claim says a second sequential `resolveRound` is a no-op on
`roundResults`, balances and histories, and that resolution clears each
player's `currentContribution`.  In the code a second `finish_round` is
not a no-op: after the first run clears `submitted_players`, every member
counts as not-submitted, so the second run zeroes all contributions,
recomputes, *overwrites* `roundResults` (payouts 6 and 15 become 0 and 0
on `room6`) and appends a duplicate entry to each contribution history;
moreover the first run leaves `currentContribution` at its submitted
value (4 for player 5) rather than clearing it. -/
theorem C6_second_resolution_not_noop :
    (finish_round (finish_round room6 pm6).1
        (finish_round room6 pm6).2).1.roundResults
        ≠ (finish_round room6 pm6).1.roundResults
    ∧ ((finish_round room6 pm6).1.roundResults.map
        (fun rs => rs.map (fun gr => gr.players.map (fun p => p.payout))))
        = some [[6, 15]]
    ∧ ((finish_round (finish_round room6 pm6).1
        (finish_round room6 pm6).2).1.roundResults.map
        (fun rs => rs.map (fun gr => gr.players.map (fun p => p.payout))))
        = some [[0, 0]]
    ∧ ((finish_round room6 pm6).2 5).contributions = [4]
    ∧ ((finish_round (finish_round room6 pm6).1
        (finish_round room6 pm6).2).2 5).contributions = [4, 0]
    ∧ ((finish_round room6 pm6).2 5).currentContribution = 4 := by
  have e1 : ((finish_round room6 pm6).1.roundResults.map
      (fun rs => rs.map (fun gr => gr.players.map (fun p => p.payout))))
      = some [[6, 15]] := by
    norm_num [finish_round, defaultFill, calculate_round_results,
      processGroup, memberStep, updateP, room6, pm6, mkContributor,
      basePlayer, baseSettings]
  have e2 : ((finish_round (finish_round room6 pm6).1
      (finish_round room6 pm6).2).1.roundResults.map
      (fun rs => rs.map (fun gr => gr.players.map (fun p => p.payout))))
      = some [[0, 0]] := by
    norm_num [finish_round, defaultFill, calculate_round_results,
      processGroup, memberStep, updateP, room6, pm6, mkContributor,
      basePlayer, baseSettings]
  refine ⟨?_, e1, e2, ?_, ?_, ?_⟩
  · intro h
    rw [h, e1] at e2
    exact absurd e2 (by norm_num)
  · norm_num [finish_round, defaultFill, calculate_round_results,
      processGroup, memberStep, updateP, room6, pm6, mkContributor,
      basePlayer, baseSettings]
  · norm_num [finish_round, defaultFill, calculate_round_results,
      processGroup, memberStep, updateP, room6, pm6, mkContributor,
      basePlayer, baseSettings]
  · norm_num [finish_round, defaultFill, calculate_round_results,
      processGroup, memberStep, updateP, room6, pm6, mkContributor,
      basePlayer, baseSettings]

/-- C4 counterexample.  The claim says the partitioner returns only groups
of size exactly `groupSize`, dropping any remainder.  Slicing five players
with `group_size = 4` yields group sizes `[4, 1]`: the remainder forms a
short final group instead of being dropped. -/
theorem C4_counterexample :
    ((create_groups roomG pmB [1, 2, 3, 4, 5]).groups.map
        (fun g => g.playerIds.length)) = [4, 1]
    ∧ ¬ (∀ g ∈ (create_groups roomG pmB [1, 2, 3, 4, 5]).groups,
          g.playerIds.length = roomG.settings.groupSize) := by
  decide

/-- C4 (amended).  For `groupSize ≥ 2` the partitioner slices the shuffled
list into consecutive chunks: every group is nonempty with size at most
`groupSize`, the concatenation of the groups is exactly the input (no
player is dropped, so the partitioned total equals — in particular never
exceeds — the input count), and when `groupSize` divides the input length
every group has size exactly `groupSize`. -/
theorem C4_partition_sizes (room : GameRoom) (pm : PMap)
    (shuffled : List Nat) (hgs : 2 ≤ room.settings.groupSize) :
    (((create_groups room pm shuffled).groups.map
        (fun g => g.playerIds)).flatten = shuffled)
    ∧ (∀ g ∈ (create_groups room pm shuffled).groups,
        0 < g.playerIds.length
          ∧ g.playerIds.length ≤ room.settings.groupSize)
    ∧ (room.settings.groupSize ∣ shuffled.length →
        ∀ g ∈ (create_groups room pm shuffled).groups,
          g.playerIds.length = room.settings.groupSize) := by
  refine ⟨?_, ?_, ?_⟩
  · rw [create_groups_playerIds]
    exact chunkList_flatten _ (by omega) _
  · intro g hg
    exact chunkList_mem_length _ (by omega) _ _
      (create_groups_mem_playerIds room pm shuffled g hg)
  · intro hd g hg
    exact chunkList_mem_length_of_dvd _ (by omega) _ hd _
      (create_groups_mem_playerIds room pm shuffled g hg)

/-- C4 witness: the amended statement evaluated on five players with group
size 4. -/
theorem C4_partition_sizes_witness :
    ((create_groups roomG pmB [1, 2, 3, 4, 5]).groups.map
        (fun g => g.playerIds)).flatten = [1, 2, 3, 4, 5] :=
  (C4_partition_sizes roomG pmB [1, 2, 3, 4, 5] (by decide)).1

/-- C3 counterexample.  The claim says a submission is rejected whenever
the amount exceeds `min(player.coins, settings.maxContribution)` or the
room is not Playing.  In `roomS` (status `waiting`, `max_contribution`
10) player 7 holds 20 coins and submits 15: the code accepts and records
the contribution, because `handle_submit_contribution` only compares the
amount against the player's coins. -/
theorem C3_counterexample :
    roomS.status = "waiting"
    ∧ roomS.settings.maxContribution = 10
    ∧ (pmS 7).coins = 20
    ∧ (handle_submit_contribution roomS pmS 7 15).2.2 = SubmitOutcome.accepted
    ∧ ((handle_submit_contribution roomS pmS 7 15).2.1 7).currentContribution
        = 15 := by
  refine ⟨rfl, rfl, rfl, ?_, ?_⟩
  · norm_num [handle_submit_contribution, pmS, roomS, basePlayer,
      leaderPlayer, baseSettings]
  · norm_num [handle_submit_contribution, updateP, insertId, pmS, roomS,
      basePlayer, leaderPlayer, baseSettings]

/-- C3 (amended).  A submission by a leader is silently ignored (no state
change); otherwise it is rejected — with the player's recorded
contribution and the room state unchanged — exactly when the truncated
amount exceeds the player's coins.  `maxContribution`, negative amounts
and the room status are not checked.  The claim's scenario D still
rejects: amount 15 against coins 10 fails the coins check, leaving the
contribution unset. -/
theorem C3_submit_validation :
    (∀ (room : GameRoom) (pm : PMap) (pid : Nat) (amount : ℚ),
        ((handle_submit_contribution room pm pid amount).2.2
            = SubmitOutcome.accepted
          ↔ ((pm pid).isLeader = false
              ∧ ((truncQ amount : ℤ) : ℚ) ≤ (pm pid).coins))
        ∧ ((handle_submit_contribution room pm pid amount).2.2
              ≠ SubmitOutcome.accepted →
            (handle_submit_contribution room pm pid amount).1 = room
            ∧ ∀ q : Nat,
                (handle_submit_contribution room pm pid amount).2.1 q
                  = pm q))
    ∧ ((handle_submit_contribution roomS pmS 8 15).2.2
          = SubmitOutcome.insufficientCoins
        ∧ ((handle_submit_contribution roomS pmS 8 15).2.1 8).currentContribution
            = 0) := by
  constructor
  · intro room pm pid amount
    by_cases hL : (pm pid).isLeader = true
    · constructor
      · simp [handle_submit_contribution, hL]
      · intro _
        constructor
        · simp [handle_submit_contribution, hL]
        · intro q
          simp [handle_submit_contribution, hL]
    · by_cases hc : (pm pid).coins < ((truncQ amount : ℤ) : ℚ)
      · constructor
        · constructor
          · intro habs
            simp [handle_submit_contribution, hL, hc] at habs
          · rintro ⟨-, hle⟩
            exact absurd hc (not_lt.mpr hle)
        · intro _
          constructor
          · simp [handle_submit_contribution, hL, hc]
          · intro q
            simp [handle_submit_contribution, hL, hc]
      · constructor
        · constructor
          · intro _
            exact ⟨by simpa using hL, not_lt.mp hc⟩
          · intro _
            simp [handle_submit_contribution, hL, hc]
        · intro hne
          exact absurd (by simp [handle_submit_contribution, hL, hc]) hne
  · constructor
    · norm_num [handle_submit_contribution, pmS, roomS, basePlayer,
        leaderPlayer, baseSettings]
    · norm_num [handle_submit_contribution, pmS, roomS, basePlayer,
        leaderPlayer, baseSettings]

/-- C3 witness: on a rejected submission (amount 20 against 10 coins) the
room and the player's map entry are unchanged. -/
theorem C3_submit_validation_witness :
    (handle_submit_contribution roomS pmS 8 20).1 = roomS
    ∧ (handle_submit_contribution roomS pmS 8 20).2.1 8 = pmS 8 := by
  have h := (C3_submit_validation.1 roomS pmS 8 20).2
    (by norm_num [handle_submit_contribution, pmS, roomS, basePlayer,
        leaderPlayer, baseSettings]
        decide)
  exact ⟨h.1, h.2 8⟩

/-- C5 counterexample.  The claim says `canStart` is true only when the
room status is Waiting.  `can_start_game` never reads the status: on the
same fully-ready room with status `playing` it still returns true. -/
theorem C5_counterexample :
    can_start_game room5x pm5 = true ∧ room5x.status ≠ "waiting" := by
  constructor
  · decide
  · simp [room5x, room5]

/-- C5 (amended).  `can_start_game` is true iff the member count is at
least `groupSize`, the member count is divisible by `groupSize`, and every
member is ready (the member list holds only non-leaders; the room status
is not consulted).  Scenario A holds: with group size 4 and eight ready
members, `handle_start_game` sets the status to `playing` and produces
exactly 2 groups of 4, whatever shuffle order is drawn. -/
theorem C5_canstart_no_status_check :
    (∀ (room : GameRoom) (pm : PMap),
        can_start_game room pm = true
          ↔ (room.settings.groupSize ≤ room.players.length
              ∧ room.players.length % room.settings.groupSize = 0
              ∧ ∀ pid ∈ room.players, (pm pid).ready = true))
    ∧ (∀ shuffled : List Nat, shuffled.Perm room5.players →
        (handle_start_game room5 pm5 99 shuffled).1.status = "playing"
        ∧ (handle_start_game room5 pm5 99 shuffled).1.groups.length = 2
        ∧ ∀ g ∈ (handle_start_game room5 pm5 99 shuffled).1.groups,
            g.playerIds.length = 4) := by
  constructor
  · intro room pm
    simp only [can_start_game, Bool.and_eq_true, decide_eq_true_eq,
      List.all_eq_true]
    exact and_assoc
  · intro shuffled hperm
    have hlen : shuffled.length = 8 := by
      have h := hperm.length_eq
      simpa using h
    have hdvd : (4 : Nat) ∣ shuffled.length := by
      rw [hlen]
      decide
    have hgroups : (handle_start_game room5 pm5 99 shuffled).1.groups
        = (create_groups { room5 with status := "playing", currentRound := 1 }
            pm5 shuffled).groups := rfl
    refine ⟨rfl, ?_, ?_⟩
    · rw [hgroups, create_groups_length]
      show (chunkList 4 shuffled).length = 2
      rw [chunkList_length_of_dvd 4 (by omega) shuffled hdvd, hlen]
    · intro g hg
      rw [hgroups] at hg
      have hmem := create_groups_mem_playerIds _ pm5 shuffled g hg
      exact chunkList_mem_length_of_dvd 4 (by omega) shuffled hdvd _ hmem

/-- C5 witness: the amended statement evaluated on the eight-ready-player
room, with the identity shuffle. -/
theorem C5_canstart_witness :
    can_start_game room5 pm5 = true
    ∧ (handle_start_game room5 pm5 99 room5.players).1.groups.length = 2 := by
  constructor
  · exact (C5_canstart_no_status_check.1 room5 pm5).mpr (by decide)
  · exact ((C5_canstart_no_status_check.2 room5.players
      (List.Perm.refl _)).2.1)

/-- C8 counterexample.  The claim says that with `endMode =
ProbabilityRange` continuation is decided by two uniform draws and is
possible with positive probability whenever `maxProbability > 0`.
`should_continue_game` has no `probability_range` branch: on `roomPR`
(`maxProbability = 1`, round 1 resolved) it is the constant-false
function of the draw, so no draw can continue the game. -/
theorem C8_counterexample :
    should_continue_game roomPR = (fun _ => false)
    ∧ (0 : ℚ) < roomPR.settings.maxProbability := by
  constructor
  · funext d
    rfl
  · show (0 : ℚ) < 1
    norm_num

/-- C8 (amended).  For any `end_mode` other than `fixed_rounds` and
`probability` — in particular for the spec's `probability_range` — the
continuation decision after any resolved round (`currentRound ≥ 1`) is
`false` for every random draw: no probability is sampled and continuation
is impossible regardless of `maxProbability`. -/
theorem C8_no_probability_range_branch (room : GameRoom) (draw : ℚ)
    (h1 : room.settings.endMode ≠ "fixed_rounds")
    (h2 : room.settings.endMode ≠ "probability")
    (h3 : 1 ≤ room.currentRound) :
    should_continue_game room draw = false := by
  have h0 : ¬ room.currentRound = 0 := by omega
  simp [should_continue_game, h0, h1, h2]

/-- C8 witness: the amended statement evaluated on the
`probability_range` room with draw 0. -/
theorem C8_no_probability_range_witness :
    should_continue_game roomPR 0 = false :=
  C8_no_probability_range_branch roomPR 0 (by simp [roomPR, baseSettings])
    (by simp [roomPR, baseSettings]) (by decide)

/-- C9.  With `end_mode = fixed_rounds` the continuation decision after a
resolved round (`currentRound ≥ 1`) is exactly `currentRound < maxRounds`
for every draw, and on scenario C (`maxRounds = 3`, round 3 resolved)
`handle_next_round` sets the status to `finished` regardless of the draw
and of any shuffle order. -/
theorem C9_fixed_rounds_continuation :
    (∀ (room : GameRoom) (draw : ℚ),
        room.settings.endMode = "fixed_rounds" → 1 ≤ room.currentRound →
        should_continue_game room draw
          = decide (room.currentRound < room.settings.maxRounds))
    ∧ (∀ (draw : ℚ) (shuffled : List Nat),
        (handle_next_round room9 pm9 99 draw shuffled).1.status
          = "finished") := by
  constructor
  · intro room draw hm h1
    have h0 : ¬ room.currentRound = 0 := by omega
    simp [should_continue_game, h0, hm]
  · intro draw shuffled
    rfl

/-- C9 witness: scenario C evaluated at draw 0 and the empty shuffle. -/
theorem C9_fixed_rounds_witness :
    should_continue_game room9 0
      = decide (room9.currentRound < room9.settings.maxRounds)
    ∧ (handle_next_round room9 pm9 99 0 []).1.status = "finished" :=
  ⟨C9_fixed_rounds_continuation.1 room9 0 rfl (by decide),
   C9_fixed_rounds_continuation.2 0 []⟩

/-- C10.  Every accepted submission records exactly the integer truncation
of the amount the client sent (the `int` conversion on line 838), even
when the submission completes the round and triggers resolution: the
recorded contribution is an integer, never a fractional amount. -/
theorem C10_contribution_truncated (room : GameRoom) (pm : PMap)
    (pid : Nat) (amount : ℚ)
    (h : (handle_submit_contribution room pm pid amount).2.2
        = SubmitOutcome.accepted) :
    ((handle_submit_contribution room pm pid amount).2.1 pid).currentContribution
      = ((truncQ amount : ℤ) : ℚ) := by
  by_cases hL : (pm pid).isLeader = true
  · simp [handle_submit_contribution, hL] at h
  · by_cases hc : (pm pid).coins < ((truncQ amount : ℤ) : ℚ)
    · simp [handle_submit_contribution, hL, hc] at h
    · simp only [handle_submit_contribution]
      rw [if_neg hL, if_neg hc]
      split
      · rw [finish_round_currentContribution _ _ _
          (mem_insertId pid room.submittedPlayers)]
        simp [updateP]
      · simp [updateP]

/-- C10 witness: player 7 submits 7/2; the submission is accepted and the
recorded contribution is the truncation 3. -/
theorem C10_contribution_truncated_witness :
    ((handle_submit_contribution roomS pmS 7 ((7 : ℚ)/2)).2.1 7).currentContribution
      = ((truncQ ((7 : ℚ)/2) : ℤ) : ℚ)
    ∧ ((truncQ ((7 : ℚ)/2) : ℤ) : ℚ) = 3 := by
  have ht : truncQ ((7 : ℚ)/2) = 3 := by
    rw [truncQ, if_pos (by norm_num : (0 : ℚ) ≤ 7/2)]
    rw [Int.floor_eq_iff]
    constructor <;> norm_num
  constructor
  · exact C10_contribution_truncated roomS pmS 7 ((7 : ℚ)/2)
      (by norm_num [handle_submit_contribution, ht, pmS, roomS,
        basePlayer, leaderPlayer])
  · rw [ht]
    norm_num

end Gueterspiel
